import Mathlib

/-!
# Verification of the ray-casting and grid-placement core of `castle_wars`

Shallow embedding of `src/main.rs`: the slab-method ray/box intersector
(`ray_box_intersection`), the linear pick scan over the block set, the
`smart_round` placement rounding and the place/remove decision of the
`place_block` system.

Modelling conventions:
* `f32` values are modelled as exact rationals (`ℚ`); the claims under study
  are about the algorithm's branching and ordering structure, not about
  floating-point rounding error.
* The intersector's divisions can produce IEEE special values (the source
  divides by a direction component that may be zero), and the algorithm's
  comparisons rely on IEEE ordering of those values.  They are modelled by
  the type `ERat` (a rational, `+∞`, `-∞`, or `NaN`) with IEEE-style
  boolean comparisons (every comparison involving `NaN` is `false`), and a
  division `ERat.ediv` with `a/0 = ±∞` for `a ≠ 0` and `0/0 = NaN`.
* Bevy `Entity` identifiers are modelled as the index of the block in the
  scanned list; the scan order is the list order.
-/

/-- IEEE-style extended rational: a finite value, `+∞`, `-∞`, or `NaN`. -/
inductive ERat : Type where
  | nan : ERat
  | ninf : ERat
  | inf : ERat
  | fin : ℚ → ERat
deriving DecidableEq, Repr

namespace ERat

/-- IEEE `<`: any comparison with `NaN` is false; `-∞ < q < +∞`. -/
def lt : ERat → ERat → Bool
  | fin a, fin b => decide (a < b)
  | fin _, inf => true
  | ninf, fin _ => true
  | ninf, inf => true
  | _, _ => false

/-- IEEE `≤`: any comparison with `NaN` is false. -/
def le : ERat → ERat → Bool
  | fin a, fin b => decide (a ≤ b)
  | fin _, inf => true
  | ninf, fin _ => true
  | ninf, inf => true
  | ninf, ninf => true
  | inf, inf => true
  | _, _ => false

/-- IEEE division of two finite values: `a / 0` is `±∞` for `a ≠ 0`, `NaN` for `a = 0`. -/
def ediv (a b : ℚ) : ERat :=
  if b = 0 then (if 0 < a then inf else if a < 0 then ninf else nan) else fin (a / b)

/-- IEEE negation. -/
def eneg : ERat → ERat
  | nan => nan
  | ninf => inf
  | inf => ninf
  | fin a => fin (-a)

/-- IEEE addition: `NaN` propagates; `+∞ + -∞ = NaN`. -/
def eadd : ERat → ERat → ERat
  | nan, _ => nan
  | _, nan => nan
  | inf, ninf => nan
  | ninf, inf => nan
  | inf, _ => inf
  | _, inf => inf
  | ninf, _ => ninf
  | _, ninf => ninf
  | fin a, fin b => fin (a + b)

/-- IEEE subtraction. -/
def esub (a b : ERat) : ERat := eadd a (eneg b)

/-- IEEE multiplication: `NaN` propagates; `0 * ±∞ = NaN`. -/
def emul : ERat → ERat → ERat
  | nan, _ => nan
  | _, nan => nan
  | inf, inf => inf
  | inf, ninf => ninf
  | ninf, inf => ninf
  | ninf, ninf => inf
  | inf, fin b => if 0 < b then inf else if b < 0 then ninf else nan
  | fin a, inf => if 0 < a then inf else if a < 0 then ninf else nan
  | ninf, fin b => if 0 < b then ninf else if b < 0 then inf else nan
  | fin a, ninf => if 0 < a then ninf else if a < 0 then inf else nan
  | fin a, fin b => fin (a * b)

/-- IEEE absolute value. -/
def eabs : ERat → ERat
  | nan => nan
  | ninf => inf
  | inf => inf
  | fin a => fin |a|

/-- `NaN` detection. -/
def isNaN : ERat → Bool
  | nan => true
  | _ => false

end ERat

/-- A 3-vector of exact rationals (models Bevy's `Vec3` on ordinary inputs). -/
structure Vec3 where
  x : ℚ
  y : ℚ
  z : ℚ
deriving DecidableEq, Repr

/-- A 3-vector of extended rationals (models `Vec3` values produced by the
intersector's arithmetic, which may contain IEEE special values). -/
structure EVec3 where
  x : ERat
  y : ERat
  z : ERat
deriving DecidableEq, Repr

/-- Embed a rational vector as an extended-rational vector. -/
def Vec3.toE (v : Vec3) : EVec3 := ⟨.fin v.x, .fin v.y, .fin v.z⟩

/-- One axis of the slab method, exactly as in the source:
`tmin = (box_min - origin) / dir`, `tmax = (box_max - origin) / dir`,
swapped when `tmin > tmax` (a comparison that is false when either is `NaN`). -/
def slab (o d mn mx : ℚ) : ERat × ERat :=
  let t1 := ERat.ediv (mn - o) d
  let t2 := ERat.ediv (mx - o) d
  if ERat.lt t2 t1 then (t2, t1) else (t1, t2)

/-- `EPSILON` from the source (`0.0001`). -/
def EPSILON : ℚ := 1 / 10000

/-- `ray_origin + ray_direction * tmin`, the hit point computed in the source. -/
def hit_point (ray_origin ray_direction : Vec3) (t : ERat) : EVec3 :=
  ⟨(ERat.fin ray_origin.x).eadd ((ERat.fin ray_direction.x).emul t),
   (ERat.fin ray_origin.y).eadd ((ERat.fin ray_direction.y).emul t),
   (ERat.fin ray_origin.z).eadd ((ERat.fin ray_direction.z).emul t)⟩

/-- One axis of the face test: `(relative_pos.axis - half_size.axis).abs() < EPSILON`,
where `relative_pos.axis = (hit_point.axis - center.axis).abs()`. -/
def axisCheck (hpAxis : ERat) (c h : ℚ) : Bool :=
  ERat.lt (((hpAxis.esub (.fin c)).eabs.esub (.fin h)).eabs) (.fin EPSILON)

/-- The normal's sign on the chosen axis: `+1` when the hit point's coordinate
exceeds the box center's, else `-1`. -/
def axisSign (hpAxis : ERat) (c : ℚ) : ℚ :=
  if ERat.lt (.fin c) hpAxis then 1 else -1

/-- The hit-face normal computation at the end of `ray_box_intersection`:
relative position from the box center, compared axis by axis (x, then y,
then z as the fallback) against the half size with tolerance `EPSILON`;
the sign on the chosen axis is `+1` when the hit point's coordinate
exceeds the center's, else `-1`. -/
def faceNormal (ray_origin ray_direction box_min box_max : Vec3) (t : ERat) : Vec3 :=
  if axisCheck (hit_point ray_origin ray_direction t).x
      ((box_min.x + box_max.x) / 2) ((box_max.x - box_min.x) / 2) then
    ⟨axisSign (hit_point ray_origin ray_direction t).x ((box_min.x + box_max.x) / 2), 0, 0⟩
  else if axisCheck (hit_point ray_origin ray_direction t).y
      ((box_min.y + box_max.y) / 2) ((box_max.y - box_min.y) / 2) then
    ⟨0, axisSign (hit_point ray_origin ray_direction t).y ((box_min.y + box_max.y) / 2), 0⟩
  else
    ⟨0, 0, axisSign (hit_point ray_origin ray_direction t).z ((box_min.z + box_max.z) / 2)⟩

/-- The slab-method intersector of `src/main.rs` (`ray_box_intersection`),
transliterated: per-axis slab with swap, pairwise rejection tests, running
entry/exit tightening (the z-axis exit tightening is commented out in the
source and therefore omitted here), rejection of negative entry, and the
hit-face normal. -/
def ray_box_intersection (ray_origin ray_direction box_min box_max : Vec3) :
    Option (ERat × Vec3) :=
  let p := slab ray_origin.x ray_direction.x box_min.x box_max.x
  let tmin := p.1
  let tmax := p.2
  let py := slab ray_origin.y ray_direction.y box_min.y box_max.y
  let tymin := py.1
  let tymax := py.2
  if ERat.lt tymax tmin || ERat.lt tmax tymin then none
  else
    let tmin := if ERat.lt tmin tymin then tymin else tmin
    let tmax := if ERat.lt tymax tmax then tymax else tmax
    let pz := slab ray_origin.z ray_direction.z box_min.z box_max.z
    let tzmin := pz.1
    let tzmax := pz.2
    if ERat.lt tzmax tmin || ERat.lt tmax tzmin then none
    else
      let tmin := if ERat.lt tmin tzmin then tzmin else tmin
      -- `if tzmax < tmax { tmax = tzmax }` is commented out in the source
      if ERat.lt tmin (.fin 0) then none
      else some (tmin, faceNormal ray_origin ray_direction box_min box_max tmin)

/-- Truncation toward zero of a rational (Rust `f32::trunc`). -/
def ratTrunc (q : ℚ) : ℤ := if 0 ≤ q then ⌊q⌋ else ⌈q⌉

/-- Fractional part (Rust `f32::fract`, `self - self.trunc()`). -/
def ratFract (q : ℚ) : ℚ := q - (ratTrunc q : ℚ)

/-- `smart_round` from the source: the value itself when its fractional part
is zero, its ceiling otherwise, extended to IEEE special values the way the
Rust float operations behave (`ceil` fixes `±∞` and `NaN`; `fract` of a
special value is never equal to `0.0`). -/
def smart_round : ERat → ERat
  | .fin q => if ratFract q = 0 then .fin q else .fin (⌈q⌉ : ℚ)
  | .inf => .inf
  | .ninf => .ninf
  | .nan => .nan

/-- The box of a unit block centered at `p` (`block_pos ± Vec3::splat(0.5)`). -/
def blockMin (p : Vec3) : Vec3 := ⟨p.x - 1/2, p.y - 1/2, p.z - 1/2⟩

/-- The box of a unit block centered at `p` (`block_pos ± Vec3::splat(0.5)`). -/
def blockMax (p : Vec3) : Vec3 := ⟨p.x + 1/2, p.y + 1/2, p.z + 1/2⟩

/-- Intersection of the ray with the unit block centered at `p`. -/
def blockHit (ray_origin ray_direction p : Vec3) : Option (ERat × Vec3) :=
  ray_box_intersection ray_origin ray_direction (blockMin p) (blockMax p)

/-- The mutable state of the scan loop in `place_block`:
`hit_position`, `hit_normal`, `closest_distance`, `hit_entity`. -/
structure ScanState where
  hit_position : Option EVec3
  hit_normal : Option Vec3
  closest_distance : ERat
  hit_entity : Option Nat
deriving DecidableEq, Repr

/-- One iteration of the scan loop: intersect the ray with the block's box;
on a hit strictly closer than `closest_distance`, record it. -/
def scanStep (ray_origin ray_direction : Vec3) (s : ScanState) (idx : Nat) (p : Vec3) :
    ScanState :=
  match blockHit ray_origin ray_direction p with
  | some (t, normal) =>
    if ERat.lt t s.closest_distance then
      { hit_position := some (hit_point ray_origin ray_direction t),
        hit_normal := some normal,
        closest_distance := t,
        hit_entity := some idx }
    else s
  | none => s

/-- The scan loop over the remaining blocks, `idx` being the index of the
first block of `bs` in the full list. -/
def scanAux (ray_origin ray_direction : Vec3) : Nat → ScanState → List Vec3 → ScanState
  | _, s, [] => s
  | k, s, p :: ps => scanAux ray_origin ray_direction (k + 1) (scanStep ray_origin ray_direction s k p) ps

/-- The pick scan of `place_block` (`find_nearest_hit` in the spec):
`closest_distance` starts at `max_distance` and every block is tested with
the strict `<` update. -/
def find_nearest_hit (ray_origin ray_direction : Vec3) (max_distance : ℚ)
    (blocks : List Vec3) : ScanState :=
  scanAux ray_origin ray_direction 0 ⟨none, none, .fin max_distance, none⟩ blocks

/-- The outcome of one `place_block` call. -/
inductive Decision : Type where
  | noAction : Decision
  | place : EVec3 → Decision
  | remove : Nat → Decision
deriving DecidableEq, Repr

/-- The grid position of a newly placed block: each hit-point coordinate is
`smart_round`ed and shifted by `-0.5`, then the hit normal is added. -/
def gridPos (hp : EVec3) (normal : Vec3) : EVec3 :=
  ⟨((smart_round hp.x).esub (.fin (1/2))).eadd (.fin normal.x),
   ((smart_round hp.y).esub (.fin (1/2))).eadd (.fin normal.y),
   ((smart_round hp.z).esub (.fin (1/2))).eadd (.fin normal.z)⟩

/-- The decision logic of the `place_block` system, from the resolved
world-space ray onward: early-out unless a button was just pressed,
scan all blocks with `max_distance = 10.0`, then place on a left press
(the branch checked first) or remove on a right press. -/
def place_block (left_pressed right_pressed : Bool) (ray_origin ray_direction : Vec3)
    (blocks : List Vec3) : Decision :=
  if !left_pressed && !right_pressed then .noAction
  else
    let s := find_nearest_hit ray_origin ray_direction 10 blocks
    match s.hit_position, s.hit_normal, s.hit_entity with
    | some hit_pos, some normal, some entity =>
      if left_pressed then .place (gridPos hit_pos normal)
      else if right_pressed then .remove entity
      else .noAction
    | _, _, _ => .noAction

namespace ERat

theorem lt_irrefl (a : ERat) : lt a a = false := by
  cases a <;> simp [lt]

theorem lt_trans {a b c : ERat} (h1 : lt a b = true) (h2 : lt b c = true) :
    lt a c = true := by
  cases a <;> cases b <;> cases c <;> simp_all [lt] <;> linarith

theorem ne_nan_of_lt_left {a b : ERat} (h : lt a b = true) : a ≠ nan := by
  cases a <;> simp_all [lt]

theorem ne_nan_of_lt_right {a b : ERat} (h : lt a b = true) : b ≠ nan := by
  cases a <;> cases b <;> simp_all [lt]

theorem le_of_not_lt {a b : ERat} (h : lt a b = false) (ha : a ≠ nan) (hb : b ≠ nan) :
    le b a = true := by
  cases a <;> cases b <;> simp_all [lt, le] <;> linarith

end ERat

/-- The intersection result for the block at index `j` of the scanned list. -/
def hitAt (ray_origin ray_direction : Vec3) (blocks : List Vec3) (j : Nat) :
    Option (ERat × Vec3) :=
  (blocks[j]?).bind (fun p => blockHit ray_origin ray_direction p)

/-- No block among the first `k` is hit strictly closer than `c`. -/
def NoCloser (ray_origin ray_direction : Vec3) (blocks : List Vec3) (k : Nat)
    (c : ERat) : Prop :=
  ∀ j, j < k → ∀ t' n', hitAt ray_origin ray_direction blocks j = some (t', n') →
    ERat.lt t' c = false

/-- No block strictly before index `i` is hit at exactly distance `t`. -/
def NoTieBefore (ray_origin ray_direction : Vec3) (blocks : List Vec3) (i : Nat)
    (t : ERat) : Prop :=
  ∀ j, j < i → ∀ t' n', hitAt ray_origin ray_direction blocks j = some (t', n') →
    t' ≠ t

/-- Loop invariant of the pick scan after the first `k` blocks have been
processed. -/
def ScanInv (ray_origin ray_direction : Vec3) (max_distance : ℚ) (blocks : List Vec3)
    (k : Nat) (s : ScanState) : Prop :=
  (s.hit_entity = none →
    s.hit_position = none ∧ s.hit_normal = none ∧
    s.closest_distance = .fin max_distance ∧
    NoCloser ray_origin ray_direction blocks k (.fin max_distance)) ∧
  (∀ i, s.hit_entity = some i → ∃ t n,
    s.closest_distance = t ∧ s.hit_normal = some n ∧
    s.hit_position = some (hit_point ray_origin ray_direction t) ∧
    i < k ∧
    hitAt ray_origin ray_direction blocks i = some (t, n) ∧
    ERat.lt t (.fin max_distance) = true ∧
    NoCloser ray_origin ray_direction blocks k t ∧
    NoTieBefore ray_origin ray_direction blocks i t)

theorem scanStep_of_none {o d : Vec3} {s : ScanState} {k : Nat} {p : Vec3}
    (hbh : blockHit o d p = none) : scanStep o d s k p = s := by
  unfold scanStep; rw [hbh]

theorem scanStep_of_some {o d : Vec3} {s : ScanState} {k : Nat} {p : Vec3}
    {t : ERat} {n : Vec3} (hbh : blockHit o d p = some (t, n)) :
    scanStep o d s k p =
      if ERat.lt t s.closest_distance then
        { hit_position := some (hit_point o d t), hit_normal := some n,
          closest_distance := t, hit_entity := some k }
      else s := by
  unfold scanStep; rw [hbh]

theorem scanStep_inv {o d : Vec3} {maxd : ℚ} {blocks : List Vec3} {k : Nat}
    {s : ScanState} {p : Vec3} (hp : blocks[k]? = some p)
    (h : ScanInv o d maxd blocks k s) :
    ScanInv o d maxd blocks (k + 1) (scanStep o d s k p) := by
  have hAtk : hitAt o d blocks k = blockHit o d p := by
    simp [hitAt, hp]
  rcases h with ⟨hnone, hsome⟩
  rcases hbh : blockHit o d p with _ | ⟨t, n⟩
  · -- no hit on this block: state unchanged, ranges extend
    rw [scanStep_of_none hbh]
    refine ⟨fun he => ?_, fun i hi => ?_⟩
    · rcases hnone he with ⟨h1, h2, h3, h4⟩
      refine ⟨h1, h2, h3, fun j hj t' n' hj' => ?_⟩
      rcases Nat.lt_succ_iff_lt_or_eq.mp hj with hj | rfl
      · exact h4 j hj t' n' hj'
      · rw [hAtk, hbh] at hj'; exact absurd hj' (by simp)
    · rcases hsome i hi with ⟨t, n, h1, h2, h3, h4, h5, h6, h7, h8⟩
      refine ⟨t, n, h1, h2, h3, Nat.lt_succ_of_lt h4, h5, h6,
        fun j hj t' n' hj' => ?_, h8⟩
      rcases Nat.lt_succ_iff_lt_or_eq.mp hj with hj | rfl
      · exact h7 j hj t' n' hj'
      · rw [hAtk, hbh] at hj'; exact absurd hj' (by simp)
  · -- this block is hit at distance t
    rw [scanStep_of_some hbh]
    by_cases hcl : ERat.lt t s.closest_distance = true
    · -- strictly closer: the state is replaced
      rw [if_pos hcl]
      have hclm : ERat.lt t (.fin maxd) = true := by
        rcases he : s.hit_entity with _ | i
        · rcases hnone he with ⟨_, _, h3, _⟩; rwa [h3] at hcl
        · rcases hsome i he with ⟨t0, n0, h1, _, _, _, _, h6, _, _⟩
          rw [h1] at hcl; exact ERat.lt_trans hcl h6
      have hNoCl : NoCloser o d blocks (k + 1) t := by
        intro j hj t' n' hj'
        rcases Nat.lt_succ_iff_lt_or_eq.mp hj with hj | rfl
        · -- an earlier block is not closer than the old closest, hence not closer than t
          have hold : ERat.lt t' s.closest_distance = false := by
            rcases he : s.hit_entity with _ | i
            · rcases hnone he with ⟨_, _, h3, h4⟩
              rw [h3]; exact h4 j hj t' n' hj'
            · rcases hsome i he with ⟨t0, n0, h1, _, _, _, _, _, h7, _⟩
              rw [h1]; exact h7 j hj t' n' hj'
          by_contra hc
          rw [Bool.not_eq_false] at hc
          rw [ERat.lt_trans hc hcl] at hold
          exact Bool.true_eq_false.mp hold
        · rw [hAtk, hbh] at hj'
          rcases Option.some.inj hj' with h
          rcases Prod.mk.injEq .. ▸ h with ⟨rfl, rfl⟩
          exact ERat.lt_irrefl _
      have hNoTie : NoTieBefore o d blocks k t := by
        intro j hj t' n' hj' hEq
        have hold : ERat.lt t' s.closest_distance = false := by
          rcases he : s.hit_entity with _ | i
          · rcases hnone he with ⟨_, _, h3, h4⟩
            rw [h3]; exact h4 j hj t' n' hj'
          · rcases hsome i he with ⟨t0, n0, h1, _, _, _, _, _, h7, _⟩
            rw [h1]; exact h7 j hj t' n' hj'
        rw [hEq, hcl] at hold
        exact Bool.true_eq_false.mp hold
      exact ⟨fun he => by simp at he,
        fun i hi => by
          simp only [Option.some.injEq] at hi
          exact ⟨t, n, rfl, rfl, rfl, hi ▸ Nat.lt_succ_self k,
            hi ▸ (hAtk.trans hbh), hclm, hNoCl, hi ▸ hNoTie⟩⟩
    · -- not strictly closer: state unchanged, and this block witnesses no closer hit
      rw [if_neg hcl]
      rw [Bool.not_eq_true] at hcl
      refine ⟨fun he => ?_, fun i hi => ?_⟩
      · rcases hnone he with ⟨h1, h2, h3, h4⟩
        refine ⟨h1, h2, h3, fun j hj t' n' hj' => ?_⟩
        rcases Nat.lt_succ_iff_lt_or_eq.mp hj with hj | rfl
        · exact h4 j hj t' n' hj'
        · rw [hAtk, hbh] at hj'
          rcases Option.some.inj hj' with h
          rcases Prod.mk.injEq .. ▸ h with ⟨rfl, rfl⟩
          rwa [h3] at hcl
      · rcases hsome i hi with ⟨t0, n0, h1, h2, h3, h4, h5, h6, h7, h8⟩
        refine ⟨t0, n0, h1, h2, h3, Nat.lt_succ_of_lt h4, h5, h6,
          fun j hj t' n' hj' => ?_, h8⟩
        rcases Nat.lt_succ_iff_lt_or_eq.mp hj with hj | rfl
        · exact h7 j hj t' n' hj'
        · rw [hAtk, hbh] at hj'
          rcases Option.some.inj hj' with h
          rcases Prod.mk.injEq .. ▸ h with ⟨rfl, rfl⟩
          rwa [h1] at hcl

theorem scanAux_inv {o d : Vec3} {maxd : ℚ} {blocks : List Vec3} :
    ∀ (bs : List Vec3) (k : Nat) (s : ScanState),
      (∀ m, bs[m]? = blocks[k + m]?) →
      ScanInv o d maxd blocks k s →
      ScanInv o d maxd blocks (k + bs.length) (scanAux o d k s bs)
  | [], k, s, _, h => by simpa [scanAux] using h
  | p :: ps, k, s, hidx, h => by
    have hp : blocks[k]? = some p := by
      have := hidx 0
      simpa using this.symm
    have hstep := scanStep_inv hp h
    have hrest := scanAux_inv ps (k + 1) (scanStep o d s k p)
      (fun m => by
        have := hidx (m + 1)
        simpa [Nat.add_assoc, Nat.add_comm 1 m] using this) hstep
    simpa [scanAux, Nat.add_assoc, Nat.add_comm 1 ps.length] using hrest

/-- The scan invariant holds of the final state of `find_nearest_hit`. -/
theorem find_nearest_hit_inv (o d : Vec3) (maxd : ℚ) (blocks : List Vec3) :
    ScanInv o d maxd blocks blocks.length (find_nearest_hit o d maxd blocks) := by
  have hinit : ScanInv o d maxd blocks 0 ⟨none, none, .fin maxd, none⟩ := by
    exact ⟨fun _ => ⟨rfl, rfl, rfl, fun j hj => absurd hj (Nat.not_lt_zero j)⟩,
      fun i hi => by simp at hi⟩
  have := @scanAux_inv o d maxd blocks blocks 0 ⟨none, none, .fin maxd, none⟩
    (fun m => by simp) hinit
  simpa [find_nearest_hit] using this

/-- If some block is hit strictly within the search radius, the scan records a hit. -/
theorem find_nearest_hit_total {o d : Vec3} {maxd : ℚ} {blocks : List Vec3}
    {j : Nat} {t : ERat} {n : Vec3}
    (hj : hitAt o d blocks j = some (t, n))
    (hlt : ERat.lt t (.fin maxd) = true) :
    ∃ i, (find_nearest_hit o d maxd blocks).hit_entity = some i := by
  have hjlen : j < blocks.length := by
    rcases hb : blocks[j]? with _ | p
    · rw [hitAt, hb] at hj; simp at hj
    · exact (List.getElem?_eq_some.mp hb).1
  rcases he : (find_nearest_hit o d maxd blocks).hit_entity with _ | i
  · rcases (find_nearest_hit_inv o d maxd blocks).1 he with ⟨_, _, _, h4⟩
    rw [h4 j hjlen t n hj] at hlt
    exact absurd hlt (by simp)
  · exact ⟨i, rfl⟩

-- Sanity checks against the spec's concrete scenarios.
example :
    ray_box_intersection ⟨0, 0, 5⟩ ⟨0, 0, -1⟩ ⟨-1/2, -1/2, -1/2⟩ ⟨1/2, 1/2, 1/2⟩ =
      some (.fin (9/2), ⟨0, 0, 1⟩) := by
  norm_num [ray_box_intersection, slab, ERat.ediv, ERat.lt, ERat.eadd, ERat.emul,
    ERat.esub, ERat.eneg, ERat.eabs, hit_point, faceNormal, axisCheck, axisSign, EPSILON, abs, max_def]

example :
    ray_box_intersection ⟨5, 0, 0⟩ ⟨-1, 0, 0⟩ ⟨-1/2, -1/2, -1/2⟩ ⟨1/2, 1/2, 1/2⟩ =
      some (.fin (9/2), ⟨1, 0, 0⟩) := by
  norm_num [ray_box_intersection, slab, ERat.ediv, ERat.lt, ERat.eadd, ERat.emul,
    ERat.esub, ERat.eneg, ERat.eabs, hit_point, faceNormal, axisCheck, axisSign, EPSILON, abs, max_def]

example :
    (find_nearest_hit ⟨0, 5, 0⟩ ⟨0, -1, 0⟩ 10 [⟨0, 0, 0⟩]).hit_entity = some 0 := by
  norm_num [find_nearest_hit, scanAux, scanStep, blockHit, blockMin, blockMax,
    ray_box_intersection, slab, ERat.ediv, ERat.lt, ERat.eadd, ERat.emul,
    ERat.esub, ERat.eneg, ERat.eabs, hit_point, faceNormal, axisCheck, axisSign, EPSILON, abs, max_def]

/-- **C1**: over any ray and any finite block list, the pick scan records a hit
with globally minimal intersection distance `t` among all blocks the intersector
reports as hit within the search radius, and an exact tie at the minimal `t` is
won by the block presented first in scan order (first-seen-wins, enforced by the
strict `<` update). -/
theorem C1_scan_returns_global_minimum (o d : Vec3) (maxd : ℚ) (blocks : List Vec3)
    (i : Nat) (h : (find_nearest_hit o d maxd blocks).hit_entity = some i) :
    ∃ t n,
      (find_nearest_hit o d maxd blocks).closest_distance = t ∧
      (find_nearest_hit o d maxd blocks).hit_normal = some n ∧
      hitAt o d blocks i = some (t, n) ∧
      ERat.lt t (.fin maxd) = true ∧
      (∀ j t' n', hitAt o d blocks j = some (t', n') → ERat.lt t' t = false) ∧
      (∀ j, j < i → ∀ t' n', hitAt o d blocks j = some (t', n') → t' ≠ t) := by
  rcases (find_nearest_hit_inv o d maxd blocks).2 i h with
    ⟨t, n, h1, h2, _, _, h5, h6, h7, h8⟩
  refine ⟨t, n, h1, h2, h5, h6, fun j t' n' hj => ?_, h8⟩
  by_cases hjl : j < blocks.length
  · exact h7 j hjl t' n' hj
  · rw [hitAt, List.getElem?_eq_none (Nat.le_of_not_lt hjl)] at hj
    exact absurd hj (by simp)

/-- Witness for C1: two identical blocks tie exactly at `t = 9/2`; the scan
records index 0 (first in scan order), and the theorem's conclusions follow. -/
theorem C1_scan_returns_global_minimum_witness :
    (find_nearest_hit ⟨0, 5, 0⟩ ⟨0, -1, 0⟩ 10 [⟨0, 0, 0⟩, ⟨0, 0, 0⟩]).hit_entity
        = some 0 ∧
    (∃ t n,
      (find_nearest_hit ⟨0, 5, 0⟩ ⟨0, -1, 0⟩ 10 [⟨0, 0, 0⟩, ⟨0, 0, 0⟩]).closest_distance = t ∧
      (find_nearest_hit ⟨0, 5, 0⟩ ⟨0, -1, 0⟩ 10 [⟨0, 0, 0⟩, ⟨0, 0, 0⟩]).hit_normal = some n ∧
      hitAt ⟨0, 5, 0⟩ ⟨0, -1, 0⟩ [⟨0, 0, 0⟩, ⟨0, 0, 0⟩] 0 = some (t, n) ∧
      ERat.lt t (.fin 10) = true ∧
      (∀ j t' n', hitAt ⟨0, 5, 0⟩ ⟨0, -1, 0⟩ [⟨0, 0, 0⟩, ⟨0, 0, 0⟩] j = some (t', n') →
        ERat.lt t' t = false) ∧
      (∀ j, j < 0 → ∀ t' n', hitAt ⟨0, 5, 0⟩ ⟨0, -1, 0⟩ [⟨0, 0, 0⟩, ⟨0, 0, 0⟩] j = some (t', n') →
        t' ≠ t)) := by
  have h0 : (find_nearest_hit ⟨0, 5, 0⟩ ⟨0, -1, 0⟩ 10 [⟨0, 0, 0⟩, ⟨0, 0, 0⟩]).hit_entity
      = some 0 := by
    norm_num [find_nearest_hit, scanAux, scanStep, blockHit, blockMin, blockMax,
      ray_box_intersection, slab, ERat.ediv, ERat.lt, ERat.eadd, ERat.emul,
      ERat.esub, ERat.eneg, ERat.eabs, hit_point, faceNormal, axisCheck, axisSign,
      EPSILON, abs, max_def]
  exact ⟨h0, C1_scan_returns_global_minimum ⟨0, 5, 0⟩ ⟨0, -1, 0⟩ 10
    [⟨0, 0, 0⟩, ⟨0, 0, 0⟩] 0 h0⟩

/-- **C6**: a block whose nearest hit `t` is not strictly below `max_distance`
(in particular a hit exactly at `max_distance`) is excluded by the strict `<`
comparison against `closest_distance`, which is initialized to `max_distance`;
if no block is hit strictly within the radius, the scan yields no hit. -/
theorem C6_boundary_hit_excluded (o d : Vec3) (maxd : ℚ) (blocks : List Vec3)
    (h : ∀ j t' n', hitAt o d blocks j = some (t', n') →
      ERat.lt t' (.fin maxd) = false) :
    (find_nearest_hit o d maxd blocks).hit_entity = none ∧
    (find_nearest_hit o d maxd blocks).hit_position = none ∧
    (find_nearest_hit o d maxd blocks).hit_normal = none ∧
    (find_nearest_hit o d maxd blocks).closest_distance = .fin maxd := by
  rcases he : (find_nearest_hit o d maxd blocks).hit_entity with _ | i
  · rcases (find_nearest_hit_inv o d maxd blocks).1 he with ⟨h1, h2, h3, _⟩
    exact ⟨rfl, h1, h2, h3⟩
  · rcases (find_nearest_hit_inv o d maxd blocks).2 i he with
      ⟨t, n, _, _, _, _, h5, h6, _, _⟩
    rw [h i t n h5] at h6
    exact absurd h6 (by simp)

set_option maxHeartbeats 2000000 in
/-- Witness for C6: the block at the origin is hit at exactly `t = 10 =
max_distance` (ray origin `(0,0,21/2)`, direction `(0,0,-1)`), and the scan
returns no hit. -/
theorem C6_boundary_hit_excluded_witness :
    hitAt ⟨0, 0, 21/2⟩ ⟨0, 0, -1⟩ [⟨0, 0, 0⟩] 0 = some (.fin 10, ⟨0, 0, 1⟩) ∧
    (find_nearest_hit ⟨0, 0, 21/2⟩ ⟨0, 0, -1⟩ 10 [⟨0, 0, 0⟩]).hit_entity = none ∧
    (find_nearest_hit ⟨0, 0, 21/2⟩ ⟨0, 0, -1⟩ 10 [⟨0, 0, 0⟩]).closest_distance = .fin 10 := by
  have hb : blockHit ⟨0, 0, 21/2⟩ ⟨0, 0, -1⟩ ⟨0, 0, 0⟩ = some (.fin 10, ⟨0, 0, 1⟩) := by
    norm_num [blockHit, blockMin, blockMax,
      ray_box_intersection, slab, ERat.ediv, ERat.lt, ERat.eadd, ERat.emul,
      ERat.esub, ERat.eneg, ERat.eabs, hit_point, faceNormal, axisCheck, axisSign,
      EPSILON, abs, max_def]
  have h0 : hitAt ⟨0, 0, 21/2⟩ ⟨0, 0, -1⟩ [⟨0, 0, 0⟩] 0 = some (.fin 10, ⟨0, 0, 1⟩) := by
    rw [hitAt, show (([⟨0, 0, 0⟩] : List Vec3)[0]?) = some ⟨0, 0, 0⟩ from rfl,
      Option.some_bind]
    exact hb
  have hyp : ∀ j t' n', hitAt ⟨0, 0, 21/2⟩ ⟨0, 0, -1⟩ [⟨0, 0, 0⟩] j = some (t', n') →
      ERat.lt t' (.fin 10) = false := by
    intro j t' n' hj
    cases j with
    | zero =>
      rw [h0] at hj
      simp only [Option.some.injEq, Prod.mk.injEq] at hj
      obtain ⟨h1, _⟩ := hj
      subst h1
      norm_num [ERat.lt]
    | succ m =>
      rw [hitAt] at hj
      simp at hj
  have := C6_boundary_hit_excluded ⟨0, 0, 21/2⟩ ⟨0, 0, -1⟩ 10 [⟨0, 0, 0⟩] hyp
  exact ⟨h0, this.1, this.2.2.2⟩

/-- **C7 (amended)**: re-casting the same ray against the block set extended
with one more block (in particular, the newly placed block) still returns a
hit, and at a distance less than or equal to the original hit distance.  (The
original claim — that the new block is never hit strictly before the original —
is refuted by `C7_counterexample` below: a block placed on the camera-facing
face lies between the ray origin and the original hit point.) -/
theorem C7_recast_hit_not_farther (o d : Vec3) (maxd : ℚ) (blocks : List Vec3)
    (i : Nat) (t : ERat)
    (h : (find_nearest_hit o d maxd blocks).hit_entity = some i)
    (ht : (find_nearest_hit o d maxd blocks).closest_distance = t)
    (b : Vec3) :
    ∃ i' t',
      (find_nearest_hit o d maxd (blocks ++ [b])).hit_entity = some i' ∧
      (find_nearest_hit o d maxd (blocks ++ [b])).closest_distance = t' ∧
      ERat.le t' t = true := by
  rcases (find_nearest_hit_inv o d maxd blocks).2 i h with
    ⟨t0, n0, h1, _, _, h4, h5, h6, _, _⟩
  have ht0 : t0 = t := by rw [h1] at ht; exact ht
  subst ht0
  have h5' : hitAt o d (blocks ++ [b]) i = some (t0, n0) := by
    rw [hitAt] at h5 ⊢
    rw [List.getElem?_append_left h4]
    exact h5
  rcases find_nearest_hit_total h5' h6 with ⟨i', hi'⟩
  rcases (find_nearest_hit_inv o d maxd (blocks ++ [b])).2 i' hi' with
    ⟨t', n', g1, _, _, _, _, g6, g7, _⟩
  have hilen : i < (blocks ++ [b]).length := by
    simp only [List.length_append, List.length_cons, List.length_nil]
    omega
  have hnl : ERat.lt t0 t' = false := g7 i hilen t0 n0 h5'
  exact ⟨i', t', hi', g1,
    ERat.le_of_not_lt hnl (ERat.ne_nan_of_lt_left h6) (ERat.ne_nan_of_lt_left g6)⟩

/-- Witness for C7 (amended): the round-trip scenario of `C7_counterexample`,
fed through the amended theorem. -/
theorem C7_recast_hit_not_farther_witness :
    (find_nearest_hit ⟨1/2, 5, 1/2⟩ ⟨0, -1, 0⟩ 10 [⟨1/2, 1/2, 1/2⟩]).hit_entity = some 0 ∧
    (∃ i' t',
      (find_nearest_hit ⟨1/2, 5, 1/2⟩ ⟨0, -1, 0⟩ 10
          [⟨1/2, 1/2, 1/2⟩, ⟨1/2, 3/2, 1/2⟩]).hit_entity = some i' ∧
      (find_nearest_hit ⟨1/2, 5, 1/2⟩ ⟨0, -1, 0⟩ 10
          [⟨1/2, 1/2, 1/2⟩, ⟨1/2, 3/2, 1/2⟩]).closest_distance = t' ∧
      ERat.le t' (.fin 4) = true) := by
  have h0 : (find_nearest_hit ⟨1/2, 5, 1/2⟩ ⟨0, -1, 0⟩ 10 [⟨1/2, 1/2, 1/2⟩]).hit_entity
      = some 0 := by
    norm_num [find_nearest_hit, scanAux, scanStep, blockHit, blockMin, blockMax,
      ray_box_intersection, slab, ERat.ediv, ERat.lt, ERat.eadd, ERat.emul,
      ERat.esub, ERat.eneg, ERat.eabs, hit_point, faceNormal, axisCheck, axisSign,
      EPSILON, abs, max_def]
  have h1 : (find_nearest_hit ⟨1/2, 5, 1/2⟩ ⟨0, -1, 0⟩ 10 [⟨1/2, 1/2, 1/2⟩]).closest_distance
      = .fin 4 := by
    norm_num [find_nearest_hit, scanAux, scanStep, blockHit, blockMin, blockMax,
      ray_box_intersection, slab, ERat.ediv, ERat.lt, ERat.eadd, ERat.emul,
      ERat.esub, ERat.eneg, ERat.eabs, hit_point, faceNormal, axisCheck, axisSign,
      EPSILON, abs, max_def]
  exact ⟨h0, C7_recast_hit_not_farther ⟨1/2, 5, 1/2⟩ ⟨0, -1, 0⟩ 10 [⟨1/2, 1/2, 1/2⟩]
    0 (.fin 4) h0 h1 ⟨1/2, 3/2, 1/2⟩⟩

/-- **C7 counterexample**: the original claim fails on the code.  Ray from
`(1/2,5,1/2)` straight down hits the block at `(1/2,1/2,1/2)` at `t = 4`
(top face, normal `(0,1,0)`); the left-press outcome places a new block at
`(1/2,3/2,1/2)`; re-casting the same ray against the extended set hits the
**new** block (index 1) at `t = 3 < 4` — strictly between the ray origin and
the original hit point. -/
theorem C7_counterexample :
    (find_nearest_hit ⟨1/2, 5, 1/2⟩ ⟨0, -1, 0⟩ 10 [⟨1/2, 1/2, 1/2⟩]).hit_entity = some 0 ∧
    (find_nearest_hit ⟨1/2, 5, 1/2⟩ ⟨0, -1, 0⟩ 10 [⟨1/2, 1/2, 1/2⟩]).closest_distance = .fin 4 ∧
    place_block true false ⟨1/2, 5, 1/2⟩ ⟨0, -1, 0⟩ [⟨1/2, 1/2, 1/2⟩] =
      .place (Vec3.toE ⟨1/2, 3/2, 1/2⟩) ∧
    blockHit ⟨1/2, 5, 1/2⟩ ⟨0, -1, 0⟩ ⟨1/2, 3/2, 1/2⟩ = some (.fin 3, ⟨0, 1, 0⟩) ∧
    (find_nearest_hit ⟨1/2, 5, 1/2⟩ ⟨0, -1, 0⟩ 10
        [⟨1/2, 1/2, 1/2⟩, ⟨1/2, 3/2, 1/2⟩]).hit_entity = some 1 ∧
    (find_nearest_hit ⟨1/2, 5, 1/2⟩ ⟨0, -1, 0⟩ 10
        [⟨1/2, 1/2, 1/2⟩, ⟨1/2, 3/2, 1/2⟩]).closest_distance = .fin 3 ∧
    ERat.lt (.fin 3) (.fin 4) = true := by
  have hceil : (⌈(1:ℚ)/2⌉ : ℤ) = 1 := by
    rw [Int.ceil_eq_iff] <;> norm_num
  refine ⟨?_, ?_, ?_, ?_, ?_, ?_, by norm_num [ERat.lt]⟩ <;>
    norm_num [place_block, gridPos, smart_round, ratFract, ratTrunc, hceil,
      find_nearest_hit, scanAux, scanStep, blockHit, blockMin, blockMax,
      ray_box_intersection, slab, ERat.ediv, ERat.lt, ERat.eadd, ERat.emul,
      ERat.esub, ERat.eneg, ERat.eabs, hit_point, faceNormal, axisCheck, axisSign,
      EPSILON, abs, max_def, Vec3.toE]

/-- When the scan has recorded a hit and the primary (left/place) edge fired,
`place_block` emits the place decision, regardless of the secondary edge. -/
theorem place_block_of_hit {right : Bool} {o d : Vec3} {blocks : List Vec3}
    {hp : EVec3} {n : Vec3} {i : Nat}
    (h1 : (find_nearest_hit o d 10 blocks).hit_position = some hp)
    (h2 : (find_nearest_hit o d 10 blocks).hit_normal = some n)
    (h3 : (find_nearest_hit o d 10 blocks).hit_entity = some i) :
    place_block true right o d blocks = .place (gridPos hp n) := by
  unfold place_block
  simp only [Bool.not_true, Bool.false_and, Bool.false_eq_true, if_false]
  rw [h1, h2, h3]
  simp

/-- **C2**: every place outcome spawns the new block at
`(smart_round(h.x) - 0.5, smart_round(h.y) - 0.5, smart_round(h.z) - 0.5) + normal`,
where `smart_round(v) = v` when `v` has zero fractional part and `⌈v⌉`
otherwise (the ceiling-snap variant). -/
theorem C2_ceiling_snap_placement (right : Bool) (o d : Vec3) (blocks : List Vec3)
    (hp : EVec3) (n : Vec3) (i : Nat)
    (h1 : (find_nearest_hit o d 10 blocks).hit_position = some hp)
    (h2 : (find_nearest_hit o d 10 blocks).hit_normal = some n)
    (h3 : (find_nearest_hit o d 10 blocks).hit_entity = some i) :
    place_block true right o d blocks =
      .place ⟨((smart_round hp.x).esub (.fin (1/2))).eadd (.fin n.x),
              ((smart_round hp.y).esub (.fin (1/2))).eadd (.fin n.y),
              ((smart_round hp.z).esub (.fin (1/2))).eadd (.fin n.z)⟩ ∧
    (∀ q : ℚ, ratFract q = 0 → smart_round (.fin q) = .fin q) ∧
    (∀ q : ℚ, ratFract q ≠ 0 → smart_round (.fin q) = .fin (⌈q⌉ : ℚ)) := by
  refine ⟨place_block_of_hit h1 h2 h3, fun q hq => ?_, fun q hq => ?_⟩
  · simp [smart_round, hq]
  · simp [smart_round, hq]

/-- Witness for C2: ray straight down onto the block at `(1/2,1/2,1/2)`; hit
point `(1/2,1,1/2)`, normal `(0,1,0)`; the new block lands at `(1/2,3/2,1/2)`. -/
theorem C2_ceiling_snap_placement_witness :
    (find_nearest_hit ⟨1/2, 5, 1/2⟩ ⟨0, -1, 0⟩ 10 [⟨1/2, 1/2, 1/2⟩]).hit_position
        = some ⟨.fin (1/2), .fin 1, .fin (1/2)⟩ ∧
    (find_nearest_hit ⟨1/2, 5, 1/2⟩ ⟨0, -1, 0⟩ 10 [⟨1/2, 1/2, 1/2⟩]).hit_normal
        = some ⟨0, 1, 0⟩ ∧
    (find_nearest_hit ⟨1/2, 5, 1/2⟩ ⟨0, -1, 0⟩ 10 [⟨1/2, 1/2, 1/2⟩]).hit_entity
        = some 0 ∧
    (place_block true false ⟨1/2, 5, 1/2⟩ ⟨0, -1, 0⟩ [⟨1/2, 1/2, 1/2⟩] =
      .place ⟨((smart_round (.fin (1/2))).esub (.fin (1/2))).eadd (.fin 0),
              ((smart_round (.fin 1)).esub (.fin (1/2))).eadd (.fin 1),
              ((smart_round (.fin (1/2))).esub (.fin (1/2))).eadd (.fin 0)⟩ ∧
     (∀ q : ℚ, ratFract q = 0 → smart_round (.fin q) = .fin q) ∧
     (∀ q : ℚ, ratFract q ≠ 0 → smart_round (.fin q) = .fin (⌈q⌉ : ℚ))) := by
  have h1 : (find_nearest_hit ⟨1/2, 5, 1/2⟩ ⟨0, -1, 0⟩ 10 [⟨1/2, 1/2, 1/2⟩]).hit_position
      = some ⟨.fin (1/2), .fin 1, .fin (1/2)⟩ := by
    norm_num [find_nearest_hit, scanAux, scanStep, blockHit, blockMin, blockMax,
      ray_box_intersection, slab, ERat.ediv, ERat.lt, ERat.eadd, ERat.emul,
      ERat.esub, ERat.eneg, ERat.eabs, hit_point, faceNormal, axisCheck, axisSign,
      EPSILON, abs, max_def]
  have h2 : (find_nearest_hit ⟨1/2, 5, 1/2⟩ ⟨0, -1, 0⟩ 10 [⟨1/2, 1/2, 1/2⟩]).hit_normal
      = some ⟨0, 1, 0⟩ := by
    norm_num [find_nearest_hit, scanAux, scanStep, blockHit, blockMin, blockMax,
      ray_box_intersection, slab, ERat.ediv, ERat.lt, ERat.eadd, ERat.emul,
      ERat.esub, ERat.eneg, ERat.eabs, hit_point, faceNormal, axisCheck, axisSign,
      EPSILON, abs, max_def]
  have h3 : (find_nearest_hit ⟨1/2, 5, 1/2⟩ ⟨0, -1, 0⟩ 10 [⟨1/2, 1/2, 1/2⟩]).hit_entity
      = some 0 := by
    norm_num [find_nearest_hit, scanAux, scanStep, blockHit, blockMin, blockMax,
      ray_box_intersection, slab, ERat.ediv, ERat.lt, ERat.eadd, ERat.emul,
      ERat.esub, ERat.eneg, ERat.eabs, hit_point, faceNormal, axisCheck, axisSign,
      EPSILON, abs, max_def]
  exact ⟨h1, h2, h3,
    C2_ceiling_snap_placement false ⟨1/2, 5, 1/2⟩ ⟨0, -1, 0⟩ [⟨1/2, 1/2, 1/2⟩]
      ⟨.fin (1/2), .fin 1, .fin (1/2)⟩ ⟨0, 1, 0⟩ 0 h1 h2 h3⟩

/-- **C10**: when both action edges fire in the same call and a block is hit,
the place branch (checked first) wins: the call returns exactly one place
decision and never a removal. -/
theorem C10_place_wins_over_remove (o d : Vec3) (blocks : List Vec3)
    (hp : EVec3) (n : Vec3) (i : Nat)
    (h1 : (find_nearest_hit o d 10 blocks).hit_position = some hp)
    (h2 : (find_nearest_hit o d 10 blocks).hit_normal = some n)
    (h3 : (find_nearest_hit o d 10 blocks).hit_entity = some i) :
    place_block true true o d blocks = .place (gridPos hp n) ∧
    (∀ e, place_block true true o d blocks ≠ .remove e) := by
  have h := @place_block_of_hit true o d blocks hp n i h1 h2 h3
  exact ⟨h, fun e hc => by rw [h] at hc; exact Decision.noConfusion hc⟩

/-- Witness for C10: both buttons pressed on the C2 scenario — the outcome is
the place decision, not a removal. -/
theorem C10_place_wins_over_remove_witness :
    (find_nearest_hit ⟨1/2, 5, 1/2⟩ ⟨0, -1, 0⟩ 10 [⟨1/2, 1/2, 1/2⟩]).hit_entity
        = some 0 ∧
    place_block true true ⟨1/2, 5, 1/2⟩ ⟨0, -1, 0⟩ [⟨1/2, 1/2, 1/2⟩] =
      .place (gridPos ⟨.fin (1/2), .fin 1, .fin (1/2)⟩ ⟨0, 1, 0⟩) ∧
    (∀ e, place_block true true ⟨1/2, 5, 1/2⟩ ⟨0, -1, 0⟩ [⟨1/2, 1/2, 1/2⟩] ≠
      .remove e) := by
  have h1 : (find_nearest_hit ⟨1/2, 5, 1/2⟩ ⟨0, -1, 0⟩ 10 [⟨1/2, 1/2, 1/2⟩]).hit_position
      = some ⟨.fin (1/2), .fin 1, .fin (1/2)⟩ := by
    norm_num [find_nearest_hit, scanAux, scanStep, blockHit, blockMin, blockMax,
      ray_box_intersection, slab, ERat.ediv, ERat.lt, ERat.eadd, ERat.emul,
      ERat.esub, ERat.eneg, ERat.eabs, hit_point, faceNormal, axisCheck, axisSign,
      EPSILON, abs, max_def]
  have h2 : (find_nearest_hit ⟨1/2, 5, 1/2⟩ ⟨0, -1, 0⟩ 10 [⟨1/2, 1/2, 1/2⟩]).hit_normal
      = some ⟨0, 1, 0⟩ := by
    norm_num [find_nearest_hit, scanAux, scanStep, blockHit, blockMin, blockMax,
      ray_box_intersection, slab, ERat.ediv, ERat.lt, ERat.eadd, ERat.emul,
      ERat.esub, ERat.eneg, ERat.eabs, hit_point, faceNormal, axisCheck, axisSign,
      EPSILON, abs, max_def]
  have h3 : (find_nearest_hit ⟨1/2, 5, 1/2⟩ ⟨0, -1, 0⟩ 10 [⟨1/2, 1/2, 1/2⟩]).hit_entity
      = some 0 := by
    norm_num [find_nearest_hit, scanAux, scanStep, blockHit, blockMin, blockMax,
      ray_box_intersection, slab, ERat.ediv, ERat.lt, ERat.eadd, ERat.emul,
      ERat.esub, ERat.eneg, ERat.eabs, hit_point, faceNormal, axisCheck, axisSign,
      EPSILON, abs, max_def]
  have := C10_place_wins_over_remove ⟨1/2, 5, 1/2⟩ ⟨0, -1, 0⟩ [⟨1/2, 1/2, 1/2⟩]
    ⟨.fin (1/2), .fin 1, .fin (1/2)⟩ ⟨0, 1, 0⟩ 0 h1 h2 h3
  exact ⟨h3, this.1, this.2⟩

namespace ERat

theorem not_lt_of_neg_pos {a b : ERat} (ha : lt a (.fin 0) = true)
    (hb : lt (.fin 0) b = true) : lt b a = false := by
  by_contra hc
  rw [Bool.not_eq_false] at hc
  have h0 : lt (.fin 0) (.fin 0) = true := lt_trans (lt_trans hb hc) ha
  simp [lt] at h0

theorem ite_lt_zero {c : Prop} [Decidable c] {a b : ERat}
    (ha : lt a (.fin 0) = true) (hb : lt b (.fin 0) = true) :
    lt (if c then a else b) (.fin 0) = true := by
  split <;> assumption

theorem zero_lt_ite {c : Prop} [Decidable c] {a b : ERat}
    (ha : lt (.fin 0) a = true) (hb : lt (.fin 0) b = true) :
    lt (.fin 0) (if c then a else b) = true := by
  split <;> assumption

end ERat

/-- When the ray origin lies strictly inside one axis slab, that slab's entry
bound is strictly negative and its exit bound strictly positive (also through
the IEEE `±∞` produced by a zero direction component). -/
theorem slab_inside {o mn mx : ℚ} (d : ℚ) (h1 : mn < o) (h2 : o < mx) :
    ERat.lt (slab o d mn mx).1 (.fin 0) = true ∧
    ERat.lt (.fin 0) (slab o d mn mx).2 = true := by
  have hmn : mn - o < 0 := by linarith
  have hmx : 0 < mx - o := by linarith
  have hn1 : ¬ (0 < mn - o) := by linarith
  by_cases hd : d = 0
  · have e1 : ERat.ediv (mn - o) d = .ninf := by
      rw [ERat.ediv, if_pos hd, if_neg hn1, if_pos hmn]
    have e2 : ERat.ediv (mx - o) d = .inf := by
      rw [ERat.ediv, if_pos hd, if_pos hmx]
    unfold slab
    rw [e1, e2, if_neg (by simp [ERat.lt])]
    exact ⟨rfl, rfl⟩
  · have e1 : ERat.ediv (mn - o) d = .fin ((mn - o) / d) := by
      rw [ERat.ediv, if_neg hd]
    have e2 : ERat.ediv (mx - o) d = .fin ((mx - o) / d) := by
      rw [ERat.ediv, if_neg hd]
    unfold slab
    rw [e1, e2]
    rcases lt_or_gt_of_ne hd with hneg | hpos
    · have t1pos : 0 < (mn - o) / d := div_pos_iff.mpr (Or.inr ⟨hmn, hneg⟩)
      have t2neg : (mx - o) / d < 0 := div_neg_iff.mpr (Or.inl ⟨hmx, hneg⟩)
      have hsw : ERat.lt (ERat.fin ((mx - o) / d)) (ERat.fin ((mn - o) / d)) = true :=
        decide_eq_true (by linarith)
      rw [if_pos hsw]
      exact ⟨decide_eq_true t2neg, decide_eq_true t1pos⟩
    · have t1neg : (mn - o) / d < 0 := div_neg_iff.mpr (Or.inr ⟨hmn, hpos⟩)
      have t2pos : 0 < (mx - o) / d := div_pos_iff.mpr (Or.inl ⟨hmx, hpos⟩)
      have hsw : ERat.lt (ERat.fin ((mx - o) / d)) (ERat.fin ((mn - o) / d)) = false :=
        decide_eq_false (by linarith)
      rw [if_neg (by simp [hsw])]
      exact ⟨decide_eq_true t1neg, decide_eq_true t2pos⟩

/-- **C3**: for every box with the origin strictly inside it (on every axis),
the intersector returns no-hit: the entry distance is negative and the final
`tmin < 0` test rejects it.  (No condition on the direction is even needed:
the rejection holds for every direction vector.) -/
theorem C3_origin_inside_no_hit (o d mn mx : Vec3)
    (hx1 : mn.x < o.x) (hx2 : o.x < mx.x)
    (hy1 : mn.y < o.y) (hy2 : o.y < mx.y)
    (hz1 : mn.z < o.z) (hz2 : o.z < mx.z) :
    ray_box_intersection o d mn mx = none := by
  have hx := slab_inside d.x hx1 hx2
  have hy := slab_inside d.y hy1 hy2
  have hz := slab_inside d.z hz1 hz2
  rcases hsx : slab o.x d.x mn.x mx.x with ⟨ex, xx⟩
  rcases hsy : slab o.y d.y mn.y mx.y with ⟨ey, xy⟩
  rcases hsz : slab o.z d.z mn.z mx.z with ⟨ez, xz⟩
  rw [hsx] at hx; rw [hsy] at hy; rw [hsz] at hz
  have hxa : ERat.lt ex (.fin 0) = true := hx.1
  have hxb : ERat.lt (.fin 0) xx = true := hx.2
  have hya : ERat.lt ey (.fin 0) = true := hy.1
  have hyb : ERat.lt (.fin 0) xy = true := hy.2
  have hza : ERat.lt ez (.fin 0) = true := hz.1
  have hzb : ERat.lt (.fin 0) xz = true := hz.2
  have hTmin2 : ERat.lt (if ERat.lt ex ey then ey else ex) (.fin 0) = true :=
    ERat.ite_lt_zero hya hxa
  have hTmax2 : ERat.lt (.fin 0) (if ERat.lt xy xx then xy else xx) = true :=
    ERat.zero_lt_ite hyb hxb
  have hA : ERat.lt xy ex = false := ERat.not_lt_of_neg_pos hxa hyb
  have hB : ERat.lt xx ey = false := ERat.not_lt_of_neg_pos hya hxb
  have hC : ERat.lt xz (if ERat.lt ex ey then ey else ex) = false :=
    ERat.not_lt_of_neg_pos hTmin2 hzb
  have hD : ERat.lt (if ERat.lt xy xx then xy else xx) ez = false :=
    ERat.not_lt_of_neg_pos hza hTmax2
  have hE : ERat.lt
      (if ERat.lt (if ERat.lt ex ey then ey else ex) ez then ez
       else (if ERat.lt ex ey then ey else ex)) (.fin 0) = true :=
    ERat.ite_lt_zero hza hTmin2
  unfold ray_box_intersection
  rw [hsx, hsy, hsz]
  simp [hA, hB, hC, hD, hE]

/-- Witness for C3: origin `(1/2,1/2,1/2)` strictly inside the unit box
`[0,1]³`, normalized direction `(3/5,4/5,0)` — no hit. -/
theorem C3_origin_inside_no_hit_witness :
    ray_box_intersection ⟨1/2, 1/2, 1/2⟩ ⟨3/5, 4/5, 0⟩ ⟨0, 0, 0⟩ ⟨1, 1, 1⟩ = none :=
  C3_origin_inside_no_hit ⟨1/2, 1/2, 1/2⟩ ⟨3/5, 4/5, 0⟩ ⟨0, 0, 0⟩ ⟨1, 1, 1⟩
    (by norm_num) (by norm_num) (by norm_num) (by norm_num) (by norm_num) (by norm_num)

/-- The intersector variant in which the z-axis exit-bound tightening
(`if tzmax < tmax { tmax = tzmax }`, commented out in the source) is kept,
following the spec's description of the alternative revision. -/
def ray_box_intersection_tight (ray_origin ray_direction box_min box_max : Vec3) :
    Option (ERat × Vec3) :=
  let p := slab ray_origin.x ray_direction.x box_min.x box_max.x
  let tmin := p.1
  let tmax := p.2
  let py := slab ray_origin.y ray_direction.y box_min.y box_max.y
  let tymin := py.1
  let tymax := py.2
  if ERat.lt tymax tmin || ERat.lt tmax tymin then none
  else
    let tmin := if ERat.lt tmin tymin then tymin else tmin
    let tmax := if ERat.lt tymax tmax then tymax else tmax
    let pz := slab ray_origin.z ray_direction.z box_min.z box_max.z
    let tzmin := pz.1
    let tzmax := pz.2
    if ERat.lt tzmax tmin || ERat.lt tmax tzmin then none
    else
      let tmin := if ERat.lt tmin tzmin then tzmin else tmin
      let tmax := if ERat.lt tzmax tmax then tzmax else tmax
      if ERat.lt tmin (.fin 0) then none
      else some (tmin, faceNormal ray_origin ray_direction box_min box_max tmin)

/-- **C9**: the variant that additionally tightens the exit bound with the
z-slab is extensionally equal to the implemented variant that omits it: only
the entry distance is used after that point, so the tightened `tmax` is dead. -/
theorem C9_exit_tightening_unobservable :
    ∀ ray_origin ray_direction box_min box_max : Vec3,
      ray_box_intersection_tight ray_origin ray_direction box_min box_max =
        ray_box_intersection ray_origin ray_direction box_min box_max :=
  fun _ _ _ _ => rfl

/-- Any hit returned by `ray_box_intersection` carries the `faceNormal` of its
distance, its distance passed the `tmin < 0` test, and its distance is one of
the three (post-swap) slab entry bounds. -/
theorem ray_box_some_elim {o d mn mx : Vec3} {t : ERat} {n : Vec3}
    (h : ray_box_intersection o d mn mx = some (t, n)) :
    n = faceNormal o d mn mx t ∧
    ERat.lt t (.fin 0) = false ∧
    (t = (slab o.x d.x mn.x mx.x).1 ∨ t = (slab o.y d.y mn.y mx.y).1 ∨
      t = (slab o.z d.z mn.z mx.z).1) := by
  rcases hsx : slab o.x d.x mn.x mx.x with ⟨ex, xx⟩
  rcases hsy : slab o.y d.y mn.y mx.y with ⟨ey, xy⟩
  rcases hsz : slab o.z d.z mn.z mx.z with ⟨ez, xz⟩
  simp only [ray_box_intersection, hsx, hsy, hsz] at h
  simp only [hsx, hsy, hsz]
  by_cases hc1 : (ERat.lt xy ex || ERat.lt xx ey) = true
  · rw [if_pos hc1] at h
    exact absurd h (by simp)
  · rw [if_neg hc1] at h
    by_cases hc2 : (ERat.lt xz (if ERat.lt ex ey then ey else ex) ||
        ERat.lt (if ERat.lt xy xx then xy else xx) ez) = true
    · rw [if_pos hc2] at h
      exact absurd h (by simp)
    · rw [if_neg hc2] at h
      by_cases hc3 : ERat.lt (if ERat.lt (if ERat.lt ex ey then ey else ex) ez then ez
          else (if ERat.lt ex ey then ey else ex)) (.fin 0) = true
      · rw [if_pos hc3] at h
        exact absurd h (by simp)
      · rw [if_neg hc3] at h
        simp only [Option.some.injEq, Prod.mk.injEq] at h
        obtain ⟨h1, h2⟩ := h
        subst h1
        refine ⟨h2.symm, by rwa [Bool.not_eq_true] at hc3, ?_⟩
        rcases (show (if ERat.lt ex ey then ey else ex) = ey ∨
            (if ERat.lt ex ey then ey else ex) = ex by
          split
          · exact Or.inl rfl
          · exact Or.inr rfl) with hm | hm <;> rw [hm]
        · split
          · exact Or.inr (Or.inr rfl)
          · exact Or.inr (Or.inl rfl)
        · split
          · exact Or.inr (Or.inr rfl)
          · exact Or.inl rfl

/-- **C5**: every returned normal has exactly one non-zero component, equal to
`+1` or `-1`; the axis is selected by testing
`abs(relative.axis - half_size.axis) < EPSILON` in order x, then y, then z
(first match wins, z being the final fallback), and the sign on the chosen
axis is `+1` exactly when the hit point's coordinate exceeds the box
center's, else `-1`. -/
theorem C5_normal_axis_aligned_first_match (o d mn mx : Vec3) (t : ERat) (n : Vec3)
    (h : ray_box_intersection o d mn mx = some (t, n)) :
    (n = ⟨1, 0, 0⟩ ∨ n = ⟨-1, 0, 0⟩ ∨ n = ⟨0, 1, 0⟩ ∨ n = ⟨0, -1, 0⟩ ∨
      n = ⟨0, 0, 1⟩ ∨ n = ⟨0, 0, -1⟩) ∧
    (axisCheck (hit_point o d t).x ((mn.x + mx.x) / 2) ((mx.x - mn.x) / 2) = true →
      n = ⟨axisSign (hit_point o d t).x ((mn.x + mx.x) / 2), 0, 0⟩) ∧
    (axisCheck (hit_point o d t).x ((mn.x + mx.x) / 2) ((mx.x - mn.x) / 2) = false →
      axisCheck (hit_point o d t).y ((mn.y + mx.y) / 2) ((mx.y - mn.y) / 2) = true →
      n = ⟨0, axisSign (hit_point o d t).y ((mn.y + mx.y) / 2), 0⟩) ∧
    (axisCheck (hit_point o d t).x ((mn.x + mx.x) / 2) ((mx.x - mn.x) / 2) = false →
      axisCheck (hit_point o d t).y ((mn.y + mx.y) / 2) ((mx.y - mn.y) / 2) = false →
      n = ⟨0, 0, axisSign (hit_point o d t).z ((mn.z + mx.z) / 2)⟩) ∧
    (∀ hpAxis : ERat, ∀ c : ℚ,
      (ERat.lt (.fin c) hpAxis = true → axisSign hpAxis c = 1) ∧
      (ERat.lt (.fin c) hpAxis = false → axisSign hpAxis c = -1)) := by
  have hn : n = faceNormal o d mn mx t := (ray_box_some_elim h).1
  subst hn
  have hsign : ∀ hpAxis : ERat, ∀ c : ℚ, axisSign hpAxis c = 1 ∨ axisSign hpAxis c = -1 := by
    intro hp c
    unfold axisSign
    split
    · exact Or.inl rfl
    · exact Or.inr rfl
  refine ⟨?_, fun hx => ?_, fun hx hy => ?_, fun hx hy => ?_, fun hp c => ⟨fun hc => ?_, fun hc => ?_⟩⟩
  · unfold faceNormal
    split
    · rcases hsign (hit_point o d t).x ((mn.x + mx.x) / 2) with hs | hs <;> rw [hs]
      · exact Or.inl rfl
      · exact Or.inr (Or.inl rfl)
    · split
      · rcases hsign (hit_point o d t).y ((mn.y + mx.y) / 2) with hs | hs <;> rw [hs]
        · exact Or.inr (Or.inr (Or.inl rfl))
        · exact Or.inr (Or.inr (Or.inr (Or.inl rfl)))
      · rcases hsign (hit_point o d t).z ((mn.z + mx.z) / 2) with hs | hs <;> rw [hs]
        · exact Or.inr (Or.inr (Or.inr (Or.inr (Or.inl rfl))))
        · exact Or.inr (Or.inr (Or.inr (Or.inr (Or.inr rfl))))
  · unfold faceNormal
    rw [if_pos hx]
  · unfold faceNormal
    rw [if_neg (by simp [hx]), if_pos hy]
  · unfold faceNormal
    rw [if_neg (by simp [hx]), if_neg (by simp [hy])]
  · unfold axisSign
    rw [if_pos hc]
  · unfold axisSign
    rw [if_neg (by simp [hc])]

/-- Witness for C5: head-on hit of the unit box at the origin from `+z`;
the recorded normal is `(0,0,1)` and the theorem's selection rules apply. -/
theorem C5_normal_axis_aligned_first_match_witness :
    ray_box_intersection ⟨0, 0, 5⟩ ⟨0, 0, -1⟩ ⟨-1/2, -1/2, -1/2⟩ ⟨1/2, 1/2, 1/2⟩ =
      some (.fin (9/2), ⟨0, 0, 1⟩) ∧
    ((⟨0, 0, 1⟩ : Vec3) = ⟨1, 0, 0⟩ ∨ (⟨0, 0, 1⟩ : Vec3) = ⟨-1, 0, 0⟩ ∨
      (⟨0, 0, 1⟩ : Vec3) = ⟨0, 1, 0⟩ ∨ (⟨0, 0, 1⟩ : Vec3) = ⟨0, -1, 0⟩ ∨
      (⟨0, 0, 1⟩ : Vec3) = ⟨0, 0, 1⟩ ∨ (⟨0, 0, 1⟩ : Vec3) = ⟨0, 0, -1⟩) := by
  have h0 : ray_box_intersection ⟨0, 0, 5⟩ ⟨0, 0, -1⟩ ⟨-1/2, -1/2, -1/2⟩ ⟨1/2, 1/2, 1/2⟩ =
      some (.fin (9/2), ⟨0, 0, 1⟩) := by
    norm_num [ray_box_intersection, slab, ERat.ediv, ERat.lt, ERat.eadd, ERat.emul,
      ERat.esub, ERat.eneg, ERat.eabs, hit_point, faceNormal, axisCheck, axisSign,
      EPSILON, abs, max_def]
  exact ⟨h0, (C5_normal_axis_aligned_first_match ⟨0, 0, 5⟩ ⟨0, 0, -1⟩
    ⟨-1/2, -1/2, -1/2⟩ ⟨1/2, 1/2, 1/2⟩ (.fin (9/2)) ⟨0, 0, 1⟩ h0).1⟩

/-- The modelled IEEE division only produces `NaN` from `0/0`. -/
theorem ediv_ne_nan {a b : ℚ} (h : b ≠ 0 ∨ a ≠ 0) : ERat.ediv a b ≠ .nan := by
  unfold ERat.ediv
  by_cases hb : b = 0
  · rw [if_pos hb]
    have ha : a ≠ 0 := h.resolve_left (fun hc => hc hb)
    rcases lt_or_gt_of_ne ha with hlt | hgt
    · rw [if_neg (by linarith), if_pos hlt]
      simp
    · rw [if_pos hgt]
      simp
  · rw [if_neg hb]
    simp

/-- When no `0/0` occurs on the axis, neither slab bound is `NaN`. -/
theorem slab_ne_nan {o d mn mx : ℚ} (h : d ≠ 0 ∨ ((mn - o) ≠ 0 ∧ (mx - o) ≠ 0)) :
    (slab o d mn mx).1 ≠ .nan ∧ (slab o d mn mx).2 ≠ .nan := by
  have e1 : ERat.ediv (mn - o) d ≠ .nan := ediv_ne_nan (h.imp_right And.left)
  have e2 : ERat.ediv (mx - o) d ≠ .nan := ediv_ne_nan (h.imp_right And.right)
  simp only [slab]
  split
  · exact ⟨e2, e1⟩
  · exact ⟨e1, e2⟩

theorem ite_ne_nan {c : Prop} [Decidable c] {a b : ERat}
    (ha : a ≠ .nan) (hb : b ≠ .nan) : (if c then a else b) ≠ .nan := by
  split <;> assumption

/-- **C8 (amended)**: for every ray with non-zero normalized direction and box
with `min ≤ max` per axis, *provided no axis combines a zero direction
component with an origin coordinate exactly on that axis's slab boundary*
(which would make the source compute `0.0/0.0 = NaN`), every returned hit
distance is a real number and satisfies `t ≥ 0`.  The proviso is forced by
`C8_counterexample`: without it the code can return `Some` with `t = NaN`. -/
theorem C8_hit_distance_nonneg (o d mn mx : Vec3) (t : ERat) (n : Vec3)
    (hnorm : d.x ^ 2 + d.y ^ 2 + d.z ^ 2 = 1)
    (hbx : mn.x ≤ mx.x) (hby : mn.y ≤ mx.y) (hbz : mn.z ≤ mx.z)
    (hx : d.x ≠ 0 ∨ (o.x ≠ mn.x ∧ o.x ≠ mx.x))
    (hy : d.y ≠ 0 ∨ (o.y ≠ mn.y ∧ o.y ≠ mx.y))
    (hz : d.z ≠ 0 ∨ (o.z ≠ mn.z ∧ o.z ≠ mx.z))
    (h : ray_box_intersection o d mn mx = some (t, n)) :
    t ≠ .nan ∧ ERat.le (.fin 0) t = true := by
  obtain ⟨-, hlt, hmem⟩ := ray_box_some_elim h
  have hxn := @slab_ne_nan o.x d.x mn.x mx.x
    (hx.imp_right (fun ⟨a, b⟩ => ⟨sub_ne_zero.mpr (Ne.symm a), sub_ne_zero.mpr (Ne.symm b)⟩))
  have hyn := @slab_ne_nan o.y d.y mn.y mx.y
    (hy.imp_right (fun ⟨a, b⟩ => ⟨sub_ne_zero.mpr (Ne.symm a), sub_ne_zero.mpr (Ne.symm b)⟩))
  have hzn := @slab_ne_nan o.z d.z mn.z mx.z
    (hz.imp_right (fun ⟨a, b⟩ => ⟨sub_ne_zero.mpr (Ne.symm a), sub_ne_zero.mpr (Ne.symm b)⟩))
  have htn : t ≠ .nan := by
    rcases hmem with h1 | h1 | h1 <;> rw [h1]
    · exact hxn.1
    · exact hyn.1
    · exact hzn.1
  exact ⟨htn, ERat.le_of_not_lt hlt htn (by simp)⟩

/-- Witness for C8 (amended): the head-on `+z` scenario — the hit distance is
the real number `9/2 ≥ 0`. -/
theorem C8_hit_distance_nonneg_witness :
    ray_box_intersection ⟨0, 0, 5⟩ ⟨0, 0, -1⟩ ⟨-1/2, -1/2, -1/2⟩ ⟨1/2, 1/2, 1/2⟩ =
      some (.fin (9/2), ⟨0, 0, 1⟩) ∧
    (ERat.fin (9/2) ≠ .nan ∧ ERat.le (.fin 0) (.fin (9/2)) = true) := by
  have h0 : ray_box_intersection ⟨0, 0, 5⟩ ⟨0, 0, -1⟩ ⟨-1/2, -1/2, -1/2⟩ ⟨1/2, 1/2, 1/2⟩ =
      some (.fin (9/2), ⟨0, 0, 1⟩) := by
    norm_num [ray_box_intersection, slab, ERat.ediv, ERat.lt, ERat.eadd, ERat.emul,
      ERat.esub, ERat.eneg, ERat.eabs, hit_point, faceNormal, axisCheck, axisSign,
      EPSILON, abs, max_def]
  exact ⟨h0, C8_hit_distance_nonneg ⟨0, 0, 5⟩ ⟨0, 0, -1⟩ ⟨-1/2, -1/2, -1/2⟩
    ⟨1/2, 1/2, 1/2⟩ (.fin (9/2)) ⟨0, 0, 1⟩ (by norm_num) (by norm_num) (by norm_num)
    (by norm_num) (Or.inr ⟨by norm_num, by norm_num⟩)
    (Or.inr ⟨by norm_num, by norm_num⟩) (Or.inl (by norm_num)) h0⟩

/-- **C8 counterexample**: the claim as stated fails.  The normalized non-zero
direction `(0, -3/5, -4/5)` grazes the box `[0,1] × [-1,1] × [-1,1]` exactly
along the `x = 0` face (origin `(0,5,5)` has `o.x = box_min.x` with `d.x = 0`),
the ray truly intersects the box, and the source's arithmetic yields a `Some`
hit whose distance is `0.0/0.0 = NaN` — not `≥ 0`. -/
theorem C8_counterexample :
    ((0 : ℚ) ^ 2 + (-3/5 : ℚ) ^ 2 + (-4/5 : ℚ) ^ 2 = 1) ∧
    ((0 : ℚ) ≤ 1 ∧ (-1 : ℚ) ≤ 1 ∧ (-1 : ℚ) ≤ 1) ∧
    ray_box_intersection ⟨0, 5, 5⟩ ⟨0, -3/5, -4/5⟩ ⟨0, -1, -1⟩ ⟨1, 1, 1⟩ =
      some (.nan, ⟨0, 0, -1⟩) ∧
    ERat.isNaN .nan = true ∧
    ERat.le (.fin 0) .nan = false := by
  refine ⟨by norm_num, ⟨by norm_num, by norm_num, by norm_num⟩, ?_, rfl, rfl⟩
  norm_num [ray_box_intersection, slab, ERat.ediv, ERat.lt, ERat.eadd, ERat.emul,
    ERat.esub, ERat.eneg, ERat.eabs, hit_point, faceNormal, axisCheck, axisSign,
    EPSILON, abs, max_def]

/-- **C4**: the code does *not* fail fast on a zero-vector ray direction — it
has no error path at all, and it can silently return a NaN-propagated hit.
With direction `(0,0,0)` and origin on the box's min-x face (inside the other
slabs), `ray_box_intersection` returns `Some` with distance `0.0/0.0 = NaN`
instead of reporting an invalid-input error. -/
theorem C4_zero_direction_silent_nan :
    ray_box_intersection ⟨0, 0, 0⟩ ⟨0, 0, 0⟩ ⟨0, -1, -1⟩ ⟨1, 1, 1⟩ =
      some (.nan, ⟨0, 0, -1⟩) ∧
    ERat.isNaN .nan = true := by
  refine ⟨?_, rfl⟩
  norm_num [ray_box_intersection, slab, ERat.ediv, ERat.lt, ERat.eadd, ERat.emul,
    ERat.esub, ERat.eneg, ERat.eabs, hit_point, faceNormal, axisCheck, axisSign,
    EPSILON, abs, max_def]
